import Mathlib

/-!
Verification model of the gRPC service-config parsing engine
(`ServiceConfigImpl::Create`, the service-config parser registry, the
method-name resolver, and the representative concrete parsers), as
exercised by `test/core/service_config/service_config_test.cc`.

The repository sources contain the test file; the engine itself
(`service_config_impl.cc`, `service_config_parser.cc`,
`retry_service_config.cc`, `resolver_result_parsing.cc`) is modelled from
the specification, faithful to its wording, and validated against the
concrete input/output pairs fixed by the tests.  The test-local parsers
(`TestParser1`, `TestParser2`, `ErrorParser`) are translated directly from
the source.
-/

namespace ServiceConfigModel

/-- JSON value tree (spec §3 "JsonValue"): tagged union over null, bool,
number (textual form retained), string, array, object with insertion
order preserved.  Duplicate keys never appear in a lexed tree because the
lexer rejects them. -/
inductive Json where
  | null
  | bool (b : Bool)
  | num (s : String)
  | str (s : String)
  | arr (elems : List Json)
  | obj (fields : List (String × Json))

/-- Field lookup in an object's field list, first match wins (keys are
unique after lexing). -/
def lookupField : List (String × Json) → String → Option Json
  | [], _ => none
  | (k, v) :: rest, key => if k = key then some v else lookupField rest key

/-- `Json::object_value()` + `find`: lookup by exact key string; on a
non-object this behaves like lookup in an empty object (C++
`object_value()` returns an empty map for non-objects). -/
def Json.objectLookup (j : Json) (key : String) : Option Json :=
  match j with
  | .obj fields => lookupField fields key
  | _ => none

/-! ## JSON lexer

Modelled from the spec: the JSON tokenizer is an external collaborator
(spec §1 OUT OF SCOPE, §6) that produces the generic value tree, reports
duplicate object keys as a distinct lexer-level error, and fails on
malformed input (in particular the empty string).  String escapes and
exponent forms are outside the subset the repository's documents use. -/

def quoteChar : Char := Char.ofNat 34

def lbraceChar : Char := Char.ofNat 123

def rbraceChar : Char := Char.ofNat 125

def isWsChar (c : Char) : Bool :=
  c = ' ' || c = Char.ofNat 10 || c = Char.ofNat 9 || c = Char.ofNat 13

def skipWs : List Char → List Char
  | [] => []
  | c :: cs => if isWsChar c then skipWs cs else c :: cs

/-- Collect the body of a string token up to the closing quote. -/
def takeStringChars : List Char → Option (List Char × List Char)
  | [] => none
  | c :: cs =>
    if c = quoteChar then some ([], cs)
    else
      match takeStringChars cs with
      | some (s, r) => some (c :: s, r)
      | none => none

def takeDigits : List Char → List Char × List Char
  | [] => ([], [])
  | c :: cs =>
    if c.isDigit then
      let (d, r) := takeDigits cs
      (c :: d, r)
    else ([], c :: cs)

/-- Lex a number token, keeping its textual form (spec §3: numbers retain
their original text). -/
def lexNumber (cs : List Char) : Except String (String × List Char) :=
  let (sign, cs1) :=
    match cs with
    | c :: rest => if c = '-' then (['-'], rest) else (([] : List Char), cs)
    | [] => ([], cs)
  let (ds, cs2) := takeDigits cs1
  if ds.isEmpty then .error "JSON parse error: invalid number"
  else
    match cs2 with
    | c :: rest =>
      if c = '.' then
        let (fs, cs3) := takeDigits rest
        if fs.isEmpty then .error "JSON parse error: invalid number"
        else .ok (String.mk (sign ++ ds ++ '.' :: fs), cs3)
      else .ok (String.mk (sign ++ ds), cs2)
    | [] => .ok (String.mk (sign ++ ds), cs2)

/-- Match a fixed literal suffix (`rue`, `alse`, `ull`). -/
def dropLit : List Char → List Char → Option (List Char)
  | [], cs => some cs
  | _, [] => none
  | l :: ls, c :: cs => if l = c then dropLit ls cs else none

mutual

/-- Lex one JSON value.  Fuel bounds the recursion; `lex` supplies enough
for any input. -/
def lexValue : Nat → List Char → Except String (Json × List Char)
  | 0, _ => .error "JSON parse error: input too deeply nested"
  | Nat.succ fuel, cs =>
    match skipWs cs with
    | [] => .error "JSON parse error: unexpected end of input"
    | c :: rest =>
      if c = quoteChar then
        match takeStringChars rest with
        | some (s, r) => .ok (.str (String.mk s), r)
        | none => .error "JSON parse error: unterminated string"
      else if c = lbraceChar then
        match skipWs rest with
        | c2 :: r2 =>
          if c2 = rbraceChar then .ok (.obj [], r2)
          else lexMembers fuel [] (c2 :: r2)
        | [] => .error "JSON parse error: unterminated object"
      else if c = '[' then
        match skipWs rest with
        | c2 :: r2 =>
          if c2 = ']' then .ok (.arr [], r2)
          else lexElems fuel [] (c2 :: r2)
        | [] => .error "JSON parse error: unterminated array"
      else if c = 't' then
        match dropLit ['r', 'u', 'e'] rest with
        | some r => .ok (.bool true, r)
        | none => .error "JSON parse error: invalid literal"
      else if c = 'f' then
        match dropLit ['a', 'l', 's', 'e'] rest with
        | some r => .ok (.bool false, r)
        | none => .error "JSON parse error: invalid literal"
      else if c = 'n' then
        match dropLit ['u', 'l', 'l'] rest with
        | some r => .ok (.null, r)
        | none => .error "JSON parse error: invalid literal"
      else if c = '-' || c.isDigit then
        match lexNumber (c :: rest) with
        | .ok (s, r) => .ok (.num s, r)
        | .error e => .error e
      else .error "JSON parse error: unexpected character"

/-- Lex the members of an object after its opening brace.  A repeated key
is the lexer-level duplicate-key error required by the collaborator
contract (spec §6). -/
def lexMembers : Nat → List (String × Json) → List Char →
    Except String (Json × List Char)
  | 0, _, _ => .error "JSON parse error: input too deeply nested"
  | Nat.succ fuel, acc, cs =>
    match skipWs cs with
    | [] => .error "JSON parse error: unterminated object"
    | c :: rest =>
      if c = quoteChar then
        match takeStringChars rest with
        | some (kcs, r1) =>
          let key := String.mk kcs
          if (lookupField acc key).isSome then
            .error ("duplicate key \"" ++ key ++ "\"")
          else
            match skipWs r1 with
            | c2 :: r3 =>
              if c2 = ':' then
                match lexValue fuel r3 with
                | .ok (v, r4) =>
                  match skipWs r4 with
                  | c3 :: r6 =>
                    if c3 = ',' then lexMembers fuel (acc ++ [(key, v)]) r6
                    else if c3 = rbraceChar then .ok (.obj (acc ++ [(key, v)]), r6)
                    else .error "JSON parse error: expected comma or end of object"
                  | [] => .error "JSON parse error: unterminated object"
                | .error e => .error e
              else .error "JSON parse error: expected colon"
            | [] => .error "JSON parse error: unterminated object"
        | none => .error "JSON parse error: unterminated string"
      else .error "JSON parse error: expected string key"

/-- Lex the elements of an array after its opening bracket. -/
def lexElems : Nat → List Json → List Char → Except String (Json × List Char)
  | 0, _, _ => .error "JSON parse error: input too deeply nested"
  | Nat.succ fuel, acc, cs =>
    match lexValue fuel cs with
    | .ok (v, r) =>
      match skipWs r with
      | c :: r3 =>
        if c = ',' then lexElems fuel (acc ++ [v]) r3
        else if c = ']' then .ok (.arr (acc ++ [v]), r3)
        else .error "JSON parse error: expected comma or end of array"
      | [] => .error "JSON parse error: unterminated array"
    | .error e => .error e

end

/-- Lex a whole document: one value plus trailing whitespace. -/
def lex (s : String) : Except String Json :=
  match lexValue (2 * s.length + 8) s.data with
  | .ok (j, rest) =>
    if (skipWs rest).isEmpty then .ok j
    else .error "JSON parse error: trailing characters"
  | .error e => .error e

/-! ## Error tree (spec §4.2) -/

/-- Hierarchical error value: a leaf message or a named group of children
(spec §3 "ErrorNode").  Empty groups are never materialized; `mkGroup`
below enforces that. -/
inductive ErrorNode where
  | leaf (msg : String)
  | group (label : String) (children : List ErrorNode)

/-- Does the second char list start with the first? -/
def listStartsWith : List Char → List Char → Bool
  | [], _ => true
  | _ :: _, [] => false
  | p :: ps, c :: cs => p = c && listStartsWith ps cs

/-- Does the second char list contain the first as a contiguous run? -/
def listHasSub (pat : List Char) : List Char → Bool
  | [] => pat.isEmpty
  | c :: cs => listStartsWith pat (c :: cs) || listHasSub pat cs

/-- Substring test: `strContains hay pat` is true when `pat` occurs in
`hay`. -/
def strContains (hay pat : String) : Bool :=
  listHasSub pat.data hay.data

mutual

/-- Does the rendered error tree contain `pat` (as a substring of some
label or leaf message)?  Mirrors the tests' `ContainsRegex` checks on
`grpc_error_std_string`, which renders every label and message. -/
def ErrorNode.containsMsg : ErrorNode → String → Bool
  | .leaf m, pat => strContains m pat
  | .group lab cs, pat => strContains lab pat || containsMsgList cs pat

def containsMsgList : List ErrorNode → String → Bool
  | [], _ => false
  | c :: cs, pat => c.containsMsg pat || containsMsgList cs pat

end

/-- `group(label, children)` collapsing to "no error" when `children` is
empty (spec §4.2). -/
def mkGroup (label : String) (children : List ErrorNode) : Option ErrorNode :=
  if children.isEmpty then none else some (.group label children)

/-! ## Parser framework (spec §4.3, §4.4) -/

/-- Caller-supplied configuration options consulted by individual parsers
(spec §6): the test-only `GRPC_ARG_DISABLE_PARSING` toggle and the
`GRPC_ARG_EXPERIMENTAL_ENABLE_HEDGING` flag. -/
structure ChannelArgs where
  disableParsing : Bool
  enableHedging : Bool
deriving DecidableEq

/-- Default-constructed `ChannelArgs()`: no option set. -/
def ChannelArgs.default : ChannelArgs := ⟨false, false⟩

/-- Parser-defined opaque results (spec §3 "ParsedConfig"), one
constructor per concrete parser in this repository's tests:
`TestParsedConfig1(value)`, `RetryGlobalConfig`, `RetryMethodConfig`, and
the client-channel global config carrying the selected LB policy name.
Durations are in milliseconds; `backoffMultiplierMilli` and
`milliTokenRatio` are the source's ×1000 fixed-point representation. -/
inductive ParsedConfig where
  | testConfig (value : Int)
  | retryGlobal (maxMilliTokens : Int) (milliTokenRatio : Int)
  | retryMethod (maxAttempts : Int) (initialBackoff : Int) (maxBackoff : Int)
      (backoffMultiplierMilli : Int) (perAttemptRecvTimeout : Option Int)
      (retryableStatusCodes : List String)
  | lbGlobal (policyName : String)
deriving DecidableEq

/-- The parser capability contract (spec §4.4): a name plus the two
operations.  Each operation returns an optional config and an optional
error; absence of both means "found nothing relevant", which is success.
The C++ base class returns `nullptr` with no error for an operation a
parser does not override. -/
structure Parser where
  name : String
  parseGlobalParams : ChannelArgs → Json → Option ParsedConfig × Option ErrorNode
  parsePerMethodParams : ChannelArgs → Json → Option ParsedConfig × Option ErrorNode

/-! ## Test parsers, translated from the source
(`service_config_test.cc` `TestParser1`, `TestParser2`, `ErrorParser`). -/

/-- `gpr_parse_nonnegative_int`: parses a non-negative decimal integer,
returning −1 on any failure (empty, sign, non-digit). -/
def gprParseNonnegativeInt (s : String) : Int :=
  match s.data with
  | [] => -1
  | c :: rest =>
    if (c :: rest).all Char.isDigit then
      Int.ofNat ((c :: rest).foldl (fun a d => a * 10 + (d.toNat - 48)) 0)
    else -1

/-- `TestParser1` (source lines 109–145): global parser for the
`global_param` field; honors `GRPC_ARG_DISABLE_PARSING`.  Its per-method
operation is the base-class default. -/
def testParser1 : Parser where
  name := "test_parser_1"
  parseGlobalParams := fun args json =>
    if args.disableParsing then (none, none)
    else
      match json.objectLookup "global_param" with
      | some v =>
        match v with
        | .num s =>
          let value := gprParseNonnegativeInt s
          if value = -1 then
            (none, some (.leaf "global_param value type should be non-negative"))
          else (some (.testConfig value), none)
        | _ => (none, some (.leaf "global_param value type should be a number"))
      | none => (none, none)
  parsePerMethodParams := fun _ _ => (none, none)

/-- `TestParser2` (source lines 147–183): per-method parser for the
`method_param` field; honors `GRPC_ARG_DISABLE_PARSING`.  Its global
operation is the base-class default. -/
def testParser2 : Parser where
  name := "test_parser_2"
  parseGlobalParams := fun _ _ => (none, none)
  parsePerMethodParams := fun args json =>
    if args.disableParsing then (none, none)
    else
      match json.objectLookup "method_param" with
      | some v =>
        match v with
        | .num s =>
          let value := gprParseNonnegativeInt s
          if value = -1 then
            (none, some (.leaf "method_param value type should be non-negative"))
          else (some (.testConfig value), none)
        | _ => (none, some (.leaf "method_param value type should be a number"))
      | none => (none, none)

/-- `ErrorParser` (source lines 186–214): always reports an error from
both operations. -/
def errorParser (n : String) : Parser where
  name := n
  parseGlobalParams := fun _ _ => (none, some (.leaf "ErrorParser : globalError"))
  parsePerMethodParams := fun _ _ => (none, some (.leaf "ErrorParser : methodError"))

/-! ## Method-name resolver (spec §4.5)

Modelled from the spec: the resolver of `service_config_impl.cc`
(`ParseJsonMethodName` and the duplicate-detecting table construction) is
not among the repository's source files; only its tests are.  The
definitions below follow spec §4.5 word for word. -/

/-- A resolution key: either a specific `service/method` or
service-default `service/` key, or the single global-default key. -/
inductive ResKey where
  | specific (k : String)
  | globalDefault
deriving DecidableEq

/-- Is this `{service, method}` pattern field absent?  Absent, `null` and
the empty string are all treated as "absent" (spec §4.5). -/
def fieldAbsent : Option Json → Bool
  | none => true
  | some .null => true
  | some (.str s) => s.isEmpty
  | some _ => false

/-- Compute the resolution key of one name pattern (spec §4.5): both
present → exact key; service only → service-default key; both absent →
global-default key; any other shape is invalid input and is skipped. -/
def patternKey (pat : Json) : Option ResKey :=
  let service := pat.objectLookup "service"
  let method := pat.objectLookup "method"
  match service with
  | some (.str s) =>
    if s.isEmpty then
      if fieldAbsent method then some .globalDefault else none
    else
      match method with
      | some (.str m) =>
        if m.isEmpty then some (.specific (s ++ "/"))
        else some (.specific (s ++ "/" ++ m))
      | some .null => some (.specific (s ++ "/"))
      | none => some (.specific (s ++ "/"))
      | some _ => none
  | none => if fieldAbsent method then some .globalDefault else none
  | some .null => if fieldAbsent method then some .globalDefault else none
  | some _ => none

/-- All resolution keys contributed by one `methodConfig` entry: one per
valid pattern of its `name` list; a missing, non-array or empty `name`
contributes none (the entry is skipped for resolution, spec §4.5). -/
def entryKeys (entry : Json) : List ResKey :=
  match entry.objectLookup "name" with
  | some (.arr pats) => pats.filterMap patternKey
  | _ => []

/-- Duplicate-key error message, by key kind (spec §4.5 duplicate-key
rule). -/
def dupMessage : ResKey → String
  | .specific _ => "multiple method configs with same name"
  | .globalDefault => "multiple default method configs"

/-- Resolver/constructor working state: keys seen so far, the path →
config-vector table, and the errors collected under the `methodConfig`
group. -/
structure ResolverState where
  seen : List ResKey
  table : List (ResKey × List (Option ParsedConfig))
  errors : List ErrorNode

/-- Insert one resolution key with its entry's config vector: a repeat of
a key already seen anywhere in the array appends the duplicate-key error;
otherwise the binding is added. -/
def insertKey (vec : List (Option ParsedConfig)) (st : ResolverState)
    (k : ResKey) : ResolverState :=
  if k ∈ st.seen then { st with errors := st.errors ++ [.leaf (dupMessage k)] }
  else { seen := st.seen ++ [k], table := st.table ++ [(k, vec)],
         errors := st.errors }

/-- Process one `methodConfig` entry (spec §4.6 steps 3–4): run every
registered parser's `ParsePerMethodParams` on the entry (errors are
collected even for entries later skipped for resolution, as
`ErroredParsersScopingTest.MethodParams` fixes), then insert each of the
entry's resolution keys. -/
def processEntry (args : ChannelArgs) (reg : List Parser) (st : ResolverState)
    (entry : Json) : ResolverState :=
  let results := reg.map (fun p => p.parsePerMethodParams args entry)
  let st1 : ResolverState :=
    { st with errors := st.errors ++ results.filterMap (fun r => r.2) }
  (entryKeys entry).foldl (insertKey (results.map (fun r => r.1))) st1

/-! ## ServiceConfig construction and query surface (spec §4.6)

Modelled from the spec: `ServiceConfigImpl::Create` and the accessors of
`service_config_impl.cc` are not among the repository's source files. -/

/-- The final immutable product (spec §3 "ServiceConfig"): global configs
indexed by parser registration index, plus the resolved path table. -/
structure ServiceConfig where
  globalConfigs : List (Option ParsedConfig)
  methodTable : List (ResKey × List (Option ParsedConfig))
deriving DecidableEq

/-- The `methodConfig` array of a document; a missing key means zero
method entries, not an error (spec §4.6 step 2). -/
def methodEntries (doc : Json) : List Json :=
  match doc.objectLookup "methodConfig" with
  | some (.arr es) => es
  | _ => []

/-- `ServiceConfigImpl::Create` (spec §4.6): lex; on lex failure a single
top-level "JSON parsing failed" error and nothing else runs; otherwise
run every parser's `ParseGlobalParams` once on the root, process every
`methodConfig` entry, and fail as a whole iff any error was collected. -/
def create (args : ChannelArgs) (reg : List Parser) (rawJsonText : String) :
    Except ErrorNode ServiceConfig :=
  match lex rawJsonText with
  | .error e => .error (.group "JSON parsing failed" [.leaf e])
  | .ok doc =>
    let globalResults := reg.map (fun p => p.parseGlobalParams args doc)
    let st :=
      (methodEntries doc).foldl (processEntry args reg) ⟨[], [], []⟩
    let groups :=
      (mkGroup "Global Params" (globalResults.filterMap (fun r => r.2))).toList
        ++ (mkGroup "Method Params"
              (mkGroup "methodConfig" st.errors).toList).toList
    if groups.isEmpty then
      .ok ⟨globalResults.map (fun r => r.1), st.table⟩
    else .error (.group "Service config parsing error" groups)

/-- `ServiceConfig::GetGlobalParsedConfig(index)` (spec §4.6 step 6). -/
def ServiceConfig.getGlobalParsedConfig (sc : ServiceConfig) (i : Nat) :
    Option ParsedConfig :=
  (sc.globalConfigs.getD i none)

/-- `ServiceConfig::GetMethodParsedConfigVector` for a call path
`/service/method` (spec §4.5 lookup): exact key, then service-default
key, then global-default key, else no configuration. -/
def ServiceConfig.getMethodParsedConfigVector (sc : ServiceConfig)
    (service method : String) : Option (List (Option ParsedConfig)) :=
  match sc.methodTable.lookup (ResKey.specific (service ++ "/" ++ method)) with
  | some v => some v
  | none =>
    match sc.methodTable.lookup (ResKey.specific (service ++ "/")) with
    | some v => some v
    | none => sc.methodTable.lookup ResKey.globalDefault

/-! ## Number and duration helpers for the concrete parsers -/

/-- Value of a digit list in decimal. -/
def digitsVal (cs : List Char) : Nat :=
  cs.foldl (fun a c => a * 10 + (c.toNat - 48)) 0

/-- Parse an optionally-signed decimal integer from its textual form. -/
def parseSignedInt (s : String) : Option Int :=
  match s.data with
  | [] => none
  | c :: rest =>
    if c = '-' then
      if rest.isEmpty then none
      else if rest.all Char.isDigit then some (-(Int.ofNat (digitsVal rest)))
      else none
    else if (c :: rest).all Char.isDigit then some (Int.ofNat (digitsVal (c :: rest)))
    else none

/-- Pad a fraction to exactly three digits (milli precision). -/
def padToMilli (cs : List Char) : List Char :=
  (cs ++ ['0', '0', '0']).take 3

/-- Split a char list at its first `.`, if any. -/
def splitDot : List Char → List Char × Option (List Char)
  | [] => ([], none)
  | c :: cs =>
    if c = '.' then ([], some cs)
    else
      let (w, f) := splitDot cs
      (c :: w, f)

/-- Parse a non-negative decimal number from chars into its value scaled
×1000 and truncated to integral milli units (the source's fixed-point
representation; spec §4.7).  A sign or any other character fails. -/
def parseDecimalMilliChars (cs : List Char) : Option Int :=
  match splitDot cs with
  | (w, none) =>
    if w.isEmpty then none
    else if w.all Char.isDigit then some (Int.ofNat (digitsVal w * 1000))
    else none
  | (w, some f) =>
    if w.isEmpty || f.isEmpty then none
    else if w.all Char.isDigit && f.all Char.isDigit then
      some (Int.ofNat (digitsVal w * 1000 + digitsVal (padToMilli f)))
    else none

/-- Parse a non-negative decimal number text into milli units. -/
def parseDecimalMilli (s : String) : Option Int :=
  parseDecimalMilliChars s.data

/-- Parse an optionally-signed decimal number text into milli units. -/
def parseSignedDecimalMilli (s : String) : Option Int :=
  match s.data with
  | c :: rest =>
    if c = '-' then (parseDecimalMilli (String.mk rest)).map (fun m => -m)
    else parseDecimalMilli s
  | [] => none

/-- `ParseDurationFromJson`: a duration is a STRING matching the
`<number>s` grammar of `google.proto.Duration` (spec §4.7); the result is
in milliseconds.  Any other type or form fails. -/
def parseDurationMilli (j : Json) : Option Int :=
  match j with
  | .str s =>
    match s.data.reverse with
    | c :: rest => if c = 's' then parseDecimalMilliChars rest.reverse else none
    | [] => none
  | _ => none

/-- The recognizable canonical status-code names. -/
def statusCodeNames : List String :=
  ["OK", "CANCELLED", "UNKNOWN", "INVALID_ARGUMENT", "DEADLINE_EXCEEDED",
   "NOT_FOUND", "ALREADY_EXISTS", "PERMISSION_DENIED", "RESOURCE_EXHAUSTED",
   "FAILED_PRECONDITION", "ABORTED", "OUT_OF_RANGE", "UNIMPLEMENTED",
   "INTERNAL", "UNAVAILABLE", "DATA_LOSS", "UNAUTHENTICATED"]

/-! ## Retry parser

Modelled from the spec: `RetryServiceConfigParser` of
`retry_service_config.cc` is not among the repository's source files;
only its tests are.  Field rules follow spec §4.7 "Retry parser" and the
error messages fixed by `RetryParserTest`. -/

/-- `retryThrottling.maxTokens`: required integer > 0. -/
def parseMaxTokens (rt : Json) : Option Int × List ErrorNode :=
  match rt.objectLookup "maxTokens" with
  | none => (none, [.leaf "field:retryThrottling field:maxTokens error:Not found"])
  | some (.num s) =>
    match parseSignedInt s with
    | some v =>
      if 0 < v then (some v, [])
      else (none,
        [.leaf "field:retryThrottling field:maxTokens error:should be greater than zero"])
    | none => (none,
        [.leaf "field:retryThrottling field:maxTokens error:should be greater than zero"])
  | some _ => (none,
      [.leaf "field:retryThrottling field:maxTokens error:should be of type number"])

/-- `retryThrottling.tokenRatio`: required number > 0, kept ×1000. -/
def parseTokenRatio (rt : Json) : Option Int × List ErrorNode :=
  match rt.objectLookup "tokenRatio" with
  | none => (none, [.leaf "field:retryThrottling field:tokenRatio error:Not found"])
  | some (.num s) =>
    match parseDecimalMilli s with
    | some m =>
      if 0 < m then (some m, [])
      else (none, [.leaf "field:retryThrottling field:tokenRatio error:Failed parsing"])
    | none => (none, [.leaf "field:retryThrottling field:tokenRatio error:Failed parsing"])
  | some _ => (none, [.leaf "field:retryThrottling field:tokenRatio error:Failed parsing"])

/-- `RetryServiceConfigParser::ParseGlobalParams`: the optional
`retryThrottling` object, storing `maxTokens` ×1000 and `tokenRatio` in
milli units (spec §4.7). -/
def retryParseGlobal (rootJson : Json) : Option ParsedConfig × Option ErrorNode :=
  match rootJson.objectLookup "retryThrottling" with
  | none => (none, none)
  | some rt =>
    let (mt, e1) := parseMaxTokens rt
    let (tr, e2) := parseTokenRatio rt
    match mt, tr with
    | some t, some m => (some (.retryGlobal (t * 1000) m), none)
    | _, _ => (none, some (.group "retryThrottling" (e1 ++ e2)))

/-- `retryPolicy.maxAttempts`: required number ≥ 2. -/
def parseMaxAttempts (p : Json) : Option Int × List ErrorNode :=
  match p.objectLookup "maxAttempts" with
  | none => (none, [.leaf "field:maxAttempts error:required field missing"])
  | some (.num s) =>
    match parseSignedInt s with
    | some v =>
      if 2 ≤ v then (some v, [])
      else (none, [.leaf "field:maxAttempts error:should be at least 2"])
    | none => (none, [.leaf "field:maxAttempts error:should be of type number"])
  | some _ => (none, [.leaf "field:maxAttempts error:should be of type number"])

/-- `retryPolicy.initialBackoff` / `maxBackoff`: required duration > 0. -/
def parseBackoffField (p : Json) (fieldName : String) :
    Option Int × List ErrorNode :=
  match p.objectLookup fieldName with
  | none => (none, [.leaf ("field:" ++ fieldName ++ " error:does not exist")])
  | some j =>
    match parseDurationMilli j with
    | some d =>
      if 0 < d then (some d, [])
      else (none, [.leaf ("field:" ++ fieldName ++ " error:must be greater than 0")])
    | none => (none,
        [.leaf ("field:" ++ fieldName ++
           " error:type should be STRING of the form given by google.proto.Duration")])

/-- `retryPolicy.backoffMultiplier`: required number > 0. -/
def parseBackoffMultiplier (p : Json) : Option Int × List ErrorNode :=
  match p.objectLookup "backoffMultiplier" with
  | none => (none, [.leaf "field:backoffMultiplier error:required field missing"])
  | some (.num s) =>
    match parseSignedDecimalMilli s with
    | some m =>
      if 0 < m then (some m, [])
      else (none, [.leaf "field:backoffMultiplier error:must be greater than 0"])
    | none => (none, [.leaf "field:backoffMultiplier error:should be of type number"])
  | some _ => (none, [.leaf "field:backoffMultiplier error:should be of type number"])

/-- One element of `retryableStatusCodes`: a recognizable status-code
name string. -/
def parseStatusCodeElem (j : Json) : Option String × List ErrorNode :=
  match j with
  | .str s =>
    if statusCodeNames.contains s then (some s, [])
    else (none, [.leaf "field:retryableStatusCodes error:failed to parse status code"])
  | _ => (none, [.leaf "field:retryableStatusCodes error:status codes should be of type string"])

/-- `retryPolicy.retryableStatusCodes` (spec §4.7): the key is optional
and omission yields the empty set, but an explicit empty array is the
distinct error "must be non-empty".  This asymmetry is deliberate. -/
def parseRetryableCodes (p : Json) : List String × List ErrorNode :=
  match p.objectLookup "retryableStatusCodes" with
  | none => ([], [])
  | some (.arr es) =>
    if es.isEmpty then
      ([], [.leaf "field:retryableStatusCodes error:must be non-empty"])
    else
      let results := es.map parseStatusCodeElem
      (results.filterMap (fun r => r.1), results.flatMap (fun r => r.2))
  | some _ => ([], [.leaf "field:retryableStatusCodes error:must be of type array"])

/-- `retryPolicy.perAttemptRecvTimeout` (spec §4.7): parsed and validated
unconditionally (duration > 0) but retained in the result only when the
experimental hedging option is enabled; otherwise silently discarded. -/
def parsePerAttemptRecvTimeout (args : ChannelArgs) (p : Json) :
    Option Int × List ErrorNode :=
  match p.objectLookup "perAttemptRecvTimeout" with
  | none => (none, [])
  | some j =>
    match parseDurationMilli j with
    | some d =>
      if 0 < d then (if args.enableHedging then some d else none, [])
      else (none, [.leaf "field:perAttemptRecvTimeout error:must be greater than 0"])
    | none => (none,
        [.leaf "field:perAttemptRecvTimeout error:type must be STRING of the form given by google.proto.Duration."])

/-- Parse a `retryPolicy` object's fields, collecting every field error
(validation does not short-circuit, spec §4.2). -/
def parseRetryPolicyObject (args : ChannelArgs) (p : Json) :
    Option ParsedConfig × Option ErrorNode :=
  let (ma, e1) := parseMaxAttempts p
  let (ib, e2) := parseBackoffField p "initialBackoff"
  let (mb, e3) := parseBackoffField p "maxBackoff"
  let (bm, e4) := parseBackoffMultiplier p
  let (codes, e5) := parseRetryableCodes p
  let (part, e6) := parsePerAttemptRecvTimeout args p
  let errs := e1 ++ e2 ++ e3 ++ e4 ++ e5 ++ e6
  if errs.isEmpty then
    match ma, ib, mb, bm with
    | some a, some b, some c, some d =>
      (some (.retryMethod a b c d part codes), none)
    | _, _, _, _ => (none, none)
  else (none, some (.group "retryPolicy" errs))

/-- `RetryServiceConfigParser::ParsePerMethodParams`: the optional
`retryPolicy` field, which must be an object. -/
def retryParseMethod (args : ChannelArgs) (entry : Json) :
    Option ParsedConfig × Option ErrorNode :=
  match entry.objectLookup "retryPolicy" with
  | none => (none, none)
  | some p =>
    match p with
    | .obj _ => parseRetryPolicyObject args p
    | _ => (none, some (.leaf "field:retryPolicy error:should be of type object"))

/-- `RetryServiceConfigParser` as a registry entry. -/
def retryParser : Parser where
  name := "retry"
  parseGlobalParams := fun _ json => retryParseGlobal json
  parsePerMethodParams := fun args json => retryParseMethod args json

/-! ## Load-balancing (client-channel) parser

Modelled from the spec: `ClientChannelServiceConfigParser` and the
LB-policy registry of `resolver_result_parsing.cc` are not among the
repository's source files; only their tests are.  Spec §4.7
"Load-balancing (client-channel) parser". -/

/-- The policy names registered with the LB-policy registry, as exercised
by `ClientChannelParserTest`. -/
def recognizedPolicies : List String :=
  ["pick_first", "round_robin", "grpclb", "xds_cluster_resolver_experimental"]

/-- The policy name of one `loadBalancingConfig` entry: the key of the
single-key object (the first key of a non-empty object). -/
def entryPolicyName (j : Json) : Option String :=
  match j with
  | .obj ((k, _) :: _) => some k
  | _ => none

/-- Scan the `loadBalancingConfig` array in order, accumulating the names
tried so far: the first entry whose policy name is recognized wins;
unrecognized names are skipped; if none is recognized the error names
every policy tried, comma-joined (spec §4.7). -/
def scanLbEntries (tried : List String) : List Json → Except ErrorNode String
  | [] =>
    .error (.leaf ("No known policies in list: " ++ String.intercalate ", " tried))
  | e :: rest =>
    match entryPolicyName e with
    | some n =>
      if recognizedPolicies.contains n then .ok n
      else scanLbEntries (tried ++ [n]) rest
    | none => scanLbEntries tried rest

/-- Parse a `loadBalancingConfig` array into the selected policy name. -/
def parseLoadBalancingConfig (entries : List Json) : Except ErrorNode String :=
  scanLbEntries [] entries

/-! ## Helper lemmas -/

theorem containsMsgList_of_mem (pat : String) {c : ErrorNode}
    {cs : List ErrorNode} (hm : c ∈ cs) (hc : c.containsMsg pat = true) :
    containsMsgList cs pat = true := by
  induction cs with
  | nil => cases hm
  | cons hd tl ih =>
    rcases List.mem_cons.mp hm with h | h
    · subst h
      simp [containsMsgList, hc]
    · simp [containsMsgList, ih h]

theorem isEmpty_false_of_mem {α : Type} {a : α} {l : List α} (h : a ∈ l) :
    l.isEmpty = false := by
  cases l with
  | nil => cases h
  | cons x xs => rfl

theorem insertKey_errors_mono {vec : List (Option ParsedConfig)}
    {st : ResolverState} {k : ResKey} {e : ErrorNode} (h : e ∈ st.errors) :
    e ∈ (insertKey vec st k).errors := by
  unfold insertKey
  by_cases hk : k ∈ st.seen
  · simp only [if_pos hk]
    exact List.mem_append_left _ h
  · simp only [if_neg hk]
    exact h

theorem insertKey_seen_mono {vec : List (Option ParsedConfig)}
    {st : ResolverState} {k k' : ResKey} (h : k' ∈ st.seen) :
    k' ∈ (insertKey vec st k).seen := by
  unfold insertKey
  by_cases hk : k ∈ st.seen
  · simp only [if_pos hk]
    exact h
  · simp only [if_neg hk]
    exact List.mem_append_left _ h

theorem insertKey_seen_self {vec : List (Option ParsedConfig)}
    {st : ResolverState} {k : ResKey} : k ∈ (insertKey vec st k).seen := by
  unfold insertKey
  by_cases hk : k ∈ st.seen
  · simp only [if_pos hk]
    exact hk
  · simp only [if_neg hk]
    exact List.mem_append_right _ (List.mem_singleton.mpr rfl)

theorem insertKey_dup {vec : List (Option ParsedConfig)}
    {st : ResolverState} {k : ResKey} (h : k ∈ st.seen) :
    ErrorNode.leaf (dupMessage k) ∈ (insertKey vec st k).errors := by
  unfold insertKey
  simp only [if_pos h]
  exact List.mem_append_right _ (List.mem_singleton.mpr rfl)

theorem insertFold_errors_mono {vec : List (Option ParsedConfig)}
    {e : ErrorNode} :
    ∀ {ks : List ResKey} {st : ResolverState}, e ∈ st.errors →
      e ∈ (ks.foldl (insertKey vec) st).errors := by
  intro ks
  induction ks with
  | nil => intro st h; exact h
  | cons k ks ih => intro st h; exact ih (insertKey_errors_mono h)

theorem insertFold_seen_mono {vec : List (Option ParsedConfig)} {k' : ResKey} :
    ∀ {ks : List ResKey} {st : ResolverState}, k' ∈ st.seen →
      k' ∈ (ks.foldl (insertKey vec) st).seen := by
  intro ks
  induction ks with
  | nil => intro st h; exact h
  | cons k ks ih => intro st h; exact ih (insertKey_seen_mono h)

theorem insertFold_seen_add {vec : List (Option ParsedConfig)} {k : ResKey} :
    ∀ {ks : List ResKey} {st : ResolverState}, k ∈ ks →
      k ∈ (ks.foldl (insertKey vec) st).seen := by
  intro ks
  induction ks with
  | nil => intro st h; cases h
  | cons k' ks ih =>
    intro st h
    rcases List.mem_cons.mp h with h | h
    · subst h
      rw [List.foldl_cons]
      exact insertFold_seen_mono insertKey_seen_self
    · exact ih h

theorem insertFold_dup_seen {vec : List (Option ParsedConfig)} {k : ResKey} :
    ∀ {ks : List ResKey} {st : ResolverState}, k ∈ st.seen → k ∈ ks →
      ErrorNode.leaf (dupMessage k) ∈ (ks.foldl (insertKey vec) st).errors := by
  intro ks
  induction ks with
  | nil => intro st _ h; cases h
  | cons k' ks ih =>
    intro st hseen h
    rcases List.mem_cons.mp h with h | h
    · subst h
      rw [List.foldl_cons]
      exact insertFold_errors_mono (insertKey_dup hseen)
    · exact ih (insertKey_seen_mono hseen) h

theorem insertFold_dup_count {vec : List (Option ParsedConfig)} {k : ResKey} :
    ∀ {ks : List ResKey} {st : ResolverState}, 2 ≤ ks.count k →
      ErrorNode.leaf (dupMessage k) ∈ (ks.foldl (insertKey vec) st).errors := by
  intro ks
  induction ks with
  | nil => intro st h; simp [List.count_nil] at h
  | cons k' ks ih =>
    intro st h
    rw [List.count_cons] at h
    by_cases hk : k = k'
    · subst hk
      simp only [beq_self_eq_true, if_true] at h
      have hmem : k ∈ ks := List.count_pos_iff.mp (by omega)
      rw [List.foldl_cons]
      exact insertFold_dup_seen insertKey_seen_self hmem
    · simp only [beq_eq_false_iff_ne.mpr (Ne.symm hk), Bool.false_eq_true,
        if_false, Nat.add_zero] at h
      exact ih h

theorem processEntry_errors_mono {args : ChannelArgs} {reg : List Parser}
    {st : ResolverState} {entry : Json} {e : ErrorNode} (h : e ∈ st.errors) :
    e ∈ (processEntry args reg st entry).errors := by
  unfold processEntry
  exact insertFold_errors_mono (List.mem_append_left _ h)

theorem processEntry_seen_mono {args : ChannelArgs} {reg : List Parser}
    {st : ResolverState} {entry : Json} {k : ResKey} (h : k ∈ st.seen) :
    k ∈ (processEntry args reg st entry).seen := by
  unfold processEntry
  exact insertFold_seen_mono h

theorem processEntry_keys_seen {args : ChannelArgs} {reg : List Parser}
    {st : ResolverState} {entry : Json} {k : ResKey} (h : k ∈ entryKeys entry) :
    k ∈ (processEntry args reg st entry).seen := by
  unfold processEntry
  exact insertFold_seen_add h

theorem processEntry_dup {args : ChannelArgs} {reg : List Parser}
    {st : ResolverState} {entry : Json} {k : ResKey} (hs : k ∈ st.seen)
    (h : k ∈ entryKeys entry) :
    ErrorNode.leaf (dupMessage k) ∈ (processEntry args reg st entry).errors := by
  unfold processEntry
  exact insertFold_dup_seen hs h

theorem processEntry_dup_count {args : ChannelArgs} {reg : List Parser}
    {st : ResolverState} {entry : Json} {k : ResKey}
    (h : 2 ≤ (entryKeys entry).count k) :
    ErrorNode.leaf (dupMessage k) ∈ (processEntry args reg st entry).errors := by
  unfold processEntry
  exact insertFold_dup_count h

theorem entriesFold_errors_mono {args : ChannelArgs} {reg : List Parser}
    {e : ErrorNode} :
    ∀ {entries : List Json} {st : ResolverState}, e ∈ st.errors →
      e ∈ (entries.foldl (processEntry args reg) st).errors := by
  intro entries
  induction entries with
  | nil => intro st h; exact h
  | cons x xs ih => intro st h; exact ih (processEntry_errors_mono h)

theorem entriesFold_seen_mono {args : ChannelArgs} {reg : List Parser}
    {k : ResKey} :
    ∀ {entries : List Json} {st : ResolverState}, k ∈ st.seen →
      k ∈ (entries.foldl (processEntry args reg) st).seen := by
  intro entries
  induction entries with
  | nil => intro st h; exact h
  | cons x xs ih => intro st h; exact ih (processEntry_seen_mono h)

theorem entriesFold_dup_seen {args : ChannelArgs} {reg : List Parser}
    {k : ResKey} :
    ∀ {entries : List Json} {st : ResolverState}, k ∈ st.seen →
      k ∈ entries.flatMap entryKeys →
      ErrorNode.leaf (dupMessage k) ∈
        (entries.foldl (processEntry args reg) st).errors := by
  intro entries
  induction entries with
  | nil => intro st _ h; cases h
  | cons x xs ih =>
    intro st hseen h
    rw [List.flatMap_cons] at h
    rcases List.mem_append.mp h with h | h
    · rw [List.foldl_cons]
      exact entriesFold_errors_mono (processEntry_dup hseen h)
    · exact ih (processEntry_seen_mono hseen) h

theorem entriesFold_dup_count {args : ChannelArgs} {reg : List Parser}
    {k : ResKey} :
    ∀ {entries : List Json} {st : ResolverState},
      2 ≤ (entries.flatMap entryKeys).count k →
      ErrorNode.leaf (dupMessage k) ∈
        (entries.foldl (processEntry args reg) st).errors := by
  intro entries
  induction entries with
  | nil => intro st h; simp [List.count_nil] at h
  | cons x xs ih =>
    intro st h
    rw [List.flatMap_cons, List.count_append] at h
    by_cases h1 : 2 ≤ (entryKeys x).count k
    · rw [List.foldl_cons]
      exact entriesFold_errors_mono (processEntry_dup_count h1)
    · by_cases h2 : 2 ≤ (xs.flatMap entryKeys).count k
      · exact ih h2
      · have hkx : k ∈ entryKeys x := List.count_pos_iff.mp (by omega)
        have hkxs : k ∈ xs.flatMap entryKeys := List.count_pos_iff.mp (by omega)
        rw [List.foldl_cons]
        exact entriesFold_dup_seen (processEntry_keys_seen hkx) hkxs

/-! ## Claims -/

/-- C2: for every input whose lexing fails, `ServiceConfigImpl::Create`
fails immediately with the single top-level "JSON parsing failed" error
wrapping the lexer message, and no parser or resolver stage runs — the
result is the same for every registry and every set of channel args.  In
particular the empty-string input always fails with a message matching
"JSON parse error". -/
theorem claim_c2 (args : ChannelArgs) (reg : List Parser) (s : String)
    (e : String) (hlex : lex s = .error e) :
    create args reg s =
      .error (.group "JSON parsing failed" [.leaf e]) ∧
    (∀ (args' : ChannelArgs) (reg' : List Parser),
       create args' reg' s = create args reg s) ∧
    (ErrorNode.group "JSON parsing failed" [.leaf e]).containsMsg
      "JSON parsing failed" = true ∧
    ∃ e0, lex "" = .error e0 ∧ strContains e0 "JSON parse error" = true := by
  refine ⟨?_, ?_, ?_, ?_⟩
  · unfold create
    rw [hlex]
  · intro args' reg'
    unfold create
    rw [hlex]
  · simp [ErrorNode.containsMsg, strContains, listHasSub, listStartsWith]
  · exact ⟨"JSON parse error: unexpected end of input", rfl, by decide⟩

/-- C2 witness: a duplicate-object-key document (the
`InvalidHealthCheckMultipleEntries` shape) is a lexer-level failure, and
`Create` on it yields exactly the wrapped "JSON parsing failed" error. -/
theorem claim_c2_witness :
    create ChannelArgs.default [testParser1, testParser2]
        "\x7b\"a\":1,\"a\":2\x7d" =
      .error (.group "JSON parsing failed" [.leaf "duplicate key \"a\""]) ∧
    ∃ e0, lex "" = .error e0 ∧ strContains e0 "JSON parse error" = true := by
  have h := claim_c2 ChannelArgs.default [testParser1, testParser2]
    "\x7b\"a\":1,\"a\":2\x7d" "duplicate key \"a\"" rfl
  exact ⟨h.1, h.2.2.2⟩

/-- C4 counterexample: the claim quantifies over every parser registry,
but with the always-failing `ErrorParser`s registered
(`ErroredParsersScopingTest.GlobalParams`) `Create` on the empty document
fails. -/
theorem claim_c4_counterexample :
    create ChannelArgs.default [errorParser "ep1", errorParser "ep2"]
        "\x7b\x7d" =
      .error (.group "Service config parsing error"
        [.group "Global Params"
          [.leaf "ErrorParser : globalError",
           .leaf "ErrorParser : globalError"]]) := rfl

/-- C4 (amended): for every registry whose parsers report no error from
`ParseGlobalParams` on the empty root object, `Create` applied to the
empty document succeeds, with no method-config table. -/
theorem claim_c4 (args : ChannelArgs) (reg : List Parser)
    (hnoerr : ∀ p ∈ reg, (p.parseGlobalParams args (Json.obj [])).2 = none) :
    create args reg "\x7b\x7d" =
      .ok ⟨reg.map (fun p => (p.parseGlobalParams args (Json.obj [])).1), []⟩ := by
  have hlex : lex "\x7b\x7d" = Except.ok (Json.obj []) := rfl
  have herrs : (reg.map (fun p => p.parseGlobalParams args (Json.obj []))).filterMap
      (fun r => r.2) = [] := by
    rw [List.filterMap_map]
    exact List.filterMap_eq_nil_iff.mpr (fun p hp => hnoerr p hp)
  simp only [create, hlex, herrs, List.map_map]
  rfl

/-- C4 witness: the default test registry (`TestParser1`, `TestParser2`)
satisfies the no-global-error hypothesis, and `Create` on the empty
document succeeds (`ServiceConfigTest.BasicTest1`). -/
theorem claim_c4_witness :
    create ChannelArgs.default [testParser1, testParser2] "\x7b\x7d" =
      .ok ⟨[none, none], []⟩ := by
  have h := claim_c4 ChannelArgs.default [testParser1, testParser2] ?_
  · exact h
  · intro p hp
    rcases List.mem_cons.mp hp with h | h
    · subst h; rfl
    · rcases List.mem_cons.mp h with h | h
      · subst h; rfl
      · cases h

/-- C6: a parser whose disable-parsing configuration option is set
behaves, from both `ParseGlobalParams` and `ParsePerMethodParams`, as if
it found nothing relevant (`(none, none)`), identically on every JSON
document — shown for the two registered parsers that implement the
disable option, `TestParser1` and `TestParser2` (translated from the
source). -/
theorem claim_c6 (args : ChannelArgs) (j1 j2 : Json)
    (hdis : args.disableParsing = true) :
    testParser1.parseGlobalParams args j1 = (none, none) ∧
    testParser1.parseGlobalParams args j2 = (none, none) ∧
    testParser1.parsePerMethodParams args j1 = (none, none) ∧
    testParser1.parsePerMethodParams args j2 = (none, none) ∧
    testParser2.parsePerMethodParams args j1 = (none, none) ∧
    testParser2.parsePerMethodParams args j2 = (none, none) ∧
    testParser2.parseGlobalParams args j1 = (none, none) ∧
    testParser2.parseGlobalParams args j2 = (none, none) := by
  simp [testParser1, testParser2, hdis]

/-- C6 witness: with `GRPC_ARG_DISABLE_PARSING` set, the parsers ignore a
document that would otherwise produce a config
(`Parser1DisabledViaChannelArg` / `Parser2DisabledViaChannelArg`). -/
theorem claim_c6_witness :
    testParser1.parseGlobalParams ⟨true, false⟩
        (Json.obj [("global_param", Json.num "5")]) = (none, none) ∧
    testParser2.parsePerMethodParams ⟨true, false⟩
        (Json.obj [("method_param", Json.num "5")]) = (none, none) := by
  have h := claim_c6 ⟨true, false⟩ (Json.obj [("global_param", Json.num "5")])
    (Json.obj [("method_param", Json.num "5")]) rfl
  exact ⟨h.1, h.2.2.2.2.2.1⟩

/-- C3: for every successfully constructed `ServiceConfig` and call path
`service/method`, `GetMethodParsedConfigVector` returns the configuration
under the exact key if bound, else the one under the service-default key
`service/` if bound, else the one under the global-default key if bound,
and otherwise reports no configuration. -/
theorem claim_c3 (args : ChannelArgs) (reg : List Parser) (s : String)
    (sc : ServiceConfig) (service method : String)
    (_hcreate : create args reg s = .ok sc) :
    (∀ v, sc.methodTable.lookup (ResKey.specific (service ++ "/" ++ method)) =
        some v → sc.getMethodParsedConfigVector service method = some v) ∧
    (sc.methodTable.lookup (ResKey.specific (service ++ "/" ++ method)) = none →
      ∀ v, sc.methodTable.lookup (ResKey.specific (service ++ "/")) = some v →
        sc.getMethodParsedConfigVector service method = some v) ∧
    (sc.methodTable.lookup (ResKey.specific (service ++ "/" ++ method)) = none →
      sc.methodTable.lookup (ResKey.specific (service ++ "/")) = none →
      sc.getMethodParsedConfigVector service method =
        sc.methodTable.lookup ResKey.globalDefault) := by
  refine ⟨?_, ?_, ?_⟩
  · intro v hv
    unfold ServiceConfig.getMethodParsedConfigVector
    rw [hv]
  · intro h0 v hv
    unfold ServiceConfig.getMethodParsedConfigVector
    rw [h0, hv]
  · intro h0 h1
    unfold ServiceConfig.getMethodParsedConfigVector
    rw [h0, h1]

set_option maxRecDepth 100000 in
/-- C3 witness: the `SkipMethodConfigWithNoNameOrEmptyName` document
builds only the service-default binding `TestServ/`, and the query for
`/TestServ/TestMethod` falls back to it, yielding `TestParser2`'s value
2 in slot 1. -/
theorem claim_c3_witness :
    create ChannelArgs.default [testParser1, testParser2]
        "\x7b\"methodConfig\": [ \x7b\"method_param\":1\x7d, \x7b\"name\":[], \"method_param\":1\x7d, \x7b\"name\":[\x7b\"service\":\"TestServ\"\x7d], \"method_param\":2\x7d ]\x7d" =
      .ok ⟨[none, none],
        [(ResKey.specific "TestServ/", [none, some (.testConfig 2)])]⟩ ∧
    ServiceConfig.getMethodParsedConfigVector
        ⟨[none, none],
         [(ResKey.specific "TestServ/", [none, some (.testConfig 2)])]⟩
        "TestServ" "TestMethod" = some [none, some (.testConfig 2)] := by
  refine ⟨rfl, ?_⟩
  exact (claim_c3 ChannelArgs.default [testParser1, testParser2]
    "\x7b\"methodConfig\": [ \x7b\"method_param\":1\x7d, \x7b\"name\":[], \"method_param\":1\x7d, \x7b\"name\":[\x7b\"service\":\"TestServ\"\x7d], \"method_param\":2\x7d ]\x7d"
    ⟨[none, none], [(ResKey.specific "TestServ/", [none, some (.testConfig 2)])]⟩
    "TestServ" "TestMethod" rfl).2.1 rfl _ rfl

/-- C5: for every document that lexes successfully, `Create` runs
`ParseGlobalParams` of every registered parser exactly once on the root
object — the global config vector is the registration-ordered map of the
parsers over the root — and any error a parser reports lands in the
"Global Params" group of the overall failure, so the outcome depends on
the registry. -/
theorem claim_c5 (args : ChannelArgs) (reg : List Parser) (s : String)
    (doc : Json) (hlex : lex s = .ok doc) :
    (∀ sc, create args reg s = .ok sc →
       sc.globalConfigs = reg.map (fun p => (p.parseGlobalParams args doc).1)) ∧
    (∀ p ∈ reg, ∀ err, (p.parseGlobalParams args doc).2 = some err →
       ∃ gs ges, create args reg s =
           .error (.group "Service config parsing error" gs) ∧
         ErrorNode.group "Global Params" ges ∈ gs ∧ err ∈ ges) := by
  constructor
  · intro sc hsc
    simp only [create, hlex] at hsc
    split at hsc
    · cases hsc
      simp [List.map_map]
    · cases hsc
  · intro p hp err herr
    have hmem : err ∈ (reg.map (fun q => q.parseGlobalParams args doc)).filterMap
        (fun r => r.2) := by
      rw [List.filterMap_map]
      exact List.mem_filterMap.mpr ⟨p, hp, herr⟩
    have hemp : ((reg.map (fun q => q.parseGlobalParams args doc)).filterMap
        (fun r => r.2)).isEmpty = false := by
      cases hl : (reg.map (fun q => q.parseGlobalParams args doc)).filterMap
          (fun r => r.2) with
      | nil => rw [hl] at hmem; cases hmem
      | cons a l => rfl
    have hcr : create args reg s =
        .error (.group "Service config parsing error"
          (ErrorNode.group "Global Params"
              ((reg.map (fun q => q.parseGlobalParams args doc)).filterMap
                (fun r => r.2)) ::
            (mkGroup "Method Params"
              (mkGroup "methodConfig"
                ((methodEntries doc).foldl (processEntry args reg)
                  ⟨[], [], []⟩).errors).toList).toList)) := by
      simp only [create, hlex, mkGroup, hemp]
      simp
    exact ⟨_, _, hcr, List.mem_cons_self _ _, hmem⟩

/-- C5 witness: with the always-failing `ErrorParser`s registered, the
empty document fails and both global errors appear in the "Global Params"
group (`ErroredParsersScopingTest.GlobalParams`); the config vector maps
the registry on success (`BasicTest1` registry). -/
theorem claim_c5_witness :
    (∃ gs ges, create ChannelArgs.default [errorParser "ep1", errorParser "ep2"]
        "\x7b\x7d" = .error (.group "Service config parsing error" gs) ∧
       ErrorNode.group "Global Params" ges ∈ gs ∧
       ErrorNode.leaf "ErrorParser : globalError" ∈ ges) ∧
    ∀ sc, create ChannelArgs.default [testParser1, testParser2] "\x7b\x7d" =
        .ok sc → sc.globalConfigs = [none, none] := by
  constructor
  · exact (claim_c5 ChannelArgs.default [errorParser "ep1", errorParser "ep2"]
      "\x7b\x7d" (Json.obj []) rfl).2 (errorParser "ep1")
      (List.mem_cons_self _ _) (ErrorNode.leaf "ErrorParser : globalError") rfl
  · intro sc hsc
    exact (claim_c5 ChannelArgs.default [testParser1, testParser2] "\x7b\x7d"
      (Json.obj []) rfl).1 sc hsc

/-- C9: for every valid `retryThrottling` object, the retry parser's
global config stores `maxTokens` and `tokenRatio` scaled ×1000 for
fixed-point arithmetic: a positive integer `maxTokens` text worth `t`
yields `max_milli_tokens = t * 1000` and a positive `tokenRatio` text
worth `m` milli units yields `milli_token_ratio = m`. -/
theorem claim_c9 (args : ChannelArgs) (doc rt : Json) (s1 s2 : String)
    (t m : Int)
    (hrt : doc.objectLookup "retryThrottling" = some rt)
    (hmt : rt.objectLookup "maxTokens" = some (.num s1))
    (ht : parseSignedInt s1 = some t) (htpos : 0 < t)
    (htr : rt.objectLookup "tokenRatio" = some (.num s2))
    (hm : parseDecimalMilli s2 = some m) (hmpos : 0 < m) :
    retryParser.parseGlobalParams args doc =
      (some (.retryGlobal (t * 1000) m), none) := by
  have h1 : parseMaxTokens rt = (some t, []) := by
    simp [parseMaxTokens, hmt, ht, htpos]
  have h2 : parseTokenRatio rt = (some m, []) := by
    simp [parseTokenRatio, htr, hm, hmpos]
  simp [retryParser, retryParseGlobal, hrt, h1, h2]

set_option maxRecDepth 100000 in
/-- C9 witness: `RetryParserTest.ValidRetryThrottling` — `maxTokens` 2
and `tokenRatio` 1.0 yield `max_milli_tokens = 2000` and
`milli_token_ratio = 1000`, and `Create` returns them as global config
0. -/
theorem claim_c9_witness :
    retryParser.parseGlobalParams ChannelArgs.default
        (Json.obj [("retryThrottling",
          Json.obj [("maxTokens", Json.num "2"),
                    ("tokenRatio", Json.num "1.0")])]) =
      (some (.retryGlobal 2000 1000), none) ∧
    create ChannelArgs.default [retryParser]
        "\x7b \"retryThrottling\": \x7b \"maxTokens\": 2, \"tokenRatio\": 1.0 \x7d \x7d" =
      .ok ⟨[some (.retryGlobal 2000 1000)], []⟩ := by
  refine ⟨?_, rfl⟩
  exact claim_c9 ChannelArgs.default
    (Json.obj [("retryThrottling",
      Json.obj [("maxTokens", Json.num "2"), ("tokenRatio", Json.num "1.0")])])
    (Json.obj [("maxTokens", Json.num "2"), ("tokenRatio", Json.num "1.0")])
    "2" "1.0" 2 1000 rfl rfl rfl (by decide) rfl rfl (by decide)

/-- Scanning with no recognizable entry reports every policy name tried,
after those already accumulated. -/
theorem scanLb_none : ∀ (entries : List Json) (tried : List String),
    (∀ e ∈ entries, ∀ n, entryPolicyName e = some n →
       recognizedPolicies.contains n = false) →
    scanLbEntries tried entries =
      .error (.leaf ("No known policies in list: " ++
        String.intercalate ", " (tried ++ entries.filterMap entryPolicyName))) := by
  intro entries
  induction entries with
  | nil => intro tried h; simp [scanLbEntries]
  | cons e rest ih =>
    intro tried h
    cases hn : entryPolicyName e with
    | none =>
      simp only [scanLbEntries, hn]
      rw [ih tried (fun e' he' => h e' (List.mem_cons_of_mem _ he'))]
      simp [List.filterMap_cons, hn]
    | some n =>
      have hc : recognizedPolicies.contains n = false :=
        h e (List.mem_cons_self _ _) n hn
      simp only [scanLbEntries, hn, hc, Bool.false_eq_true, if_false]
      rw [ih (tried ++ [n]) (fun e' he' => h e' (List.mem_cons_of_mem _ he'))]
      simp [List.filterMap_cons, hn, List.append_assoc]

/-- Scanning selects the first entry with a recognized policy name,
skipping earlier unrecognized ones, whatever was accumulated. -/
theorem scanLb_found : ∀ (pre : List Json) (tried : List String) (e : Json)
    (post : List Json) (n : String),
    entryPolicyName e = some n → recognizedPolicies.contains n = true →
    (∀ e' ∈ pre, ∀ n', entryPolicyName e' = some n' →
       recognizedPolicies.contains n' = false) →
    scanLbEntries tried (pre ++ e :: post) = .ok n := by
  intro pre
  induction pre with
  | nil =>
    intro tried e post n hn hc _
    simp only [List.nil_append, scanLbEntries, hn, hc]
    simp
  | cons e' pre' ih =>
    intro tried e post n hn hc hpre
    cases hn' : entryPolicyName e' with
    | none =>
      simp only [List.cons_append, scanLbEntries, hn']
      exact ih tried e post n hn hc
        (fun x hx => hpre x (List.mem_cons_of_mem _ hx))
    | some n' =>
      have hcn : recognizedPolicies.contains n' = false :=
        hpre e' (List.mem_cons_self _ _) n' hn'
      simp only [List.cons_append, scanLbEntries, hn', hcn, Bool.false_eq_true,
        if_false]
      exact ih (tried ++ [n']) e post n hn hc
        (fun x hx => hpre x (List.mem_cons_of_mem _ hx))

/-- C10: for every `loadBalancingConfig` array the parser scans entries
in order and selects the first entry whose policy name is recognized,
skipping unrecognized names without error; iff no entry's name is
recognized, parsing fails with "No known policies in list:" followed by
the comma-joined names. -/
theorem claim_c10 (entries : List Json) :
    ((∀ e ∈ entries, ∀ n, entryPolicyName e = some n →
        recognizedPolicies.contains n = false) →
      parseLoadBalancingConfig entries =
        .error (.leaf ("No known policies in list: " ++
          String.intercalate ", " (entries.filterMap entryPolicyName)))) ∧
    (∀ pre e post n, entries = pre ++ e :: post →
      entryPolicyName e = some n → recognizedPolicies.contains n = true →
      (∀ e' ∈ pre, ∀ n', entryPolicyName e' = some n' →
         recognizedPolicies.contains n' = false) →
      parseLoadBalancingConfig entries = .ok n) := by
  constructor
  · intro h
    have := scanLb_none entries [] h
    simpa using this
  · intro pre e post n heq hn hc hpre
    subst heq
    exact scanLb_found pre [] e post n hn hc hpre

/-- C10 witness: `ValidLoadBalancingConfigXds` — the unrecognized
`does_not_exist` entry is skipped and the xds entry selected; and
`UnknownLoadBalancingConfig` — a single unrecognized `unknown` entry
fails with the joined-names error. -/
theorem claim_c10_witness :
    parseLoadBalancingConfig
        [Json.obj [("does_not_exist", Json.obj [])],
         Json.obj [("xds_cluster_resolver_experimental", Json.obj [])]] =
      .ok "xds_cluster_resolver_experimental" ∧
    parseLoadBalancingConfig [Json.obj [("unknown", Json.obj [])]] =
      .error (.leaf "No known policies in list: unknown") := by
  constructor
  · refine (claim_c10 _).2 [Json.obj [("does_not_exist", Json.obj [])]]
      (Json.obj [("xds_cluster_resolver_experimental", Json.obj [])]) []
      "xds_cluster_resolver_experimental" rfl rfl rfl ?_
    intro e' he' n' hn'
    rcases List.mem_singleton.mp he' with rfl
    cases hn'
    rfl
  · refine (claim_c10 _).1 ?_
    intro e' he' n' hn'
    rcases List.mem_singleton.mp he' with rfl
    cases hn'
    rfl

/-- C1: if any resolution key is computed twice across the whole
`methodConfig` array (null/empty method or service counting as absent,
via `patternKey`), `Create` fails the whole parse, and the error under
"Method Params" → "methodConfig" is "multiple method configs with same
name" for a specific (`service/method` or `service/`) key and "multiple
default method configs" for the global-default key — exactly
`dupMessage k`. -/
theorem claim_c1 (args : ChannelArgs) (reg : List Parser) (s : String)
    (doc : Json) (k : ResKey) (hlex : lex s = .ok doc)
    (hdup : 2 ≤ ((methodEntries doc).flatMap entryKeys).count k) :
    ∃ gs mcErrs, create args reg s =
        .error (.group "Service config parsing error" gs) ∧
      ErrorNode.group "Method Params" [ErrorNode.group "methodConfig" mcErrs] ∈
        gs ∧
      ErrorNode.leaf (dupMessage k) ∈ mcErrs := by
  have hmem : ErrorNode.leaf (dupMessage k) ∈
      ((methodEntries doc).foldl (processEntry args reg) ⟨[], [], []⟩).errors :=
    entriesFold_dup_count hdup
  have hfalse := isEmpty_false_of_mem hmem
  refine ⟨(mkGroup "Global Params"
      ((reg.map (fun q => q.parseGlobalParams args doc)).filterMap
        (fun r => r.2))).toList ++
      [ErrorNode.group "Method Params"
        [ErrorNode.group "methodConfig"
          ((methodEntries doc).foldl (processEntry args reg)
            ⟨[], [], []⟩).errors]],
    ((methodEntries doc).foldl (processEntry args reg) ⟨[], [], []⟩).errors,
    ?_, ?_, hmem⟩
  · have hne : ((mkGroup "Global Params"
        ((reg.map (fun q => q.parseGlobalParams args doc)).filterMap
          (fun r => r.2))).toList ++
        [ErrorNode.group "Method Params"
          [ErrorNode.group "methodConfig"
            ((methodEntries doc).foldl (processEntry args reg)
              ⟨[], [], []⟩).errors]]).isEmpty = false :=
      isEmpty_false_of_mem
        (List.mem_append_right _ (List.mem_singleton.mpr rfl))
    simp only [create, hlex]
    rw [show mkGroup "methodConfig"
        ((methodEntries doc).foldl (processEntry args reg)
          ⟨[], [], []⟩).errors =
      some (ErrorNode.group "methodConfig"
        ((methodEntries doc).foldl (processEntry args reg)
          ⟨[], [], []⟩).errors) by simp [mkGroup, hfalse]]
    rw [show mkGroup "Method Params"
        (some (ErrorNode.group "methodConfig"
          ((methodEntries doc).foldl (processEntry args reg)
            ⟨[], [], []⟩).errors)).toList =
      some (ErrorNode.group "Method Params"
        [ErrorNode.group "methodConfig"
          ((methodEntries doc).foldl (processEntry args reg)
            ⟨[], [], []⟩).errors]) from rfl]
    simp only [Option.toList_some, hne, Bool.false_eq_true, if_false]
  · exact List.mem_append_right _ (List.mem_singleton.mpr rfl)

set_option maxRecDepth 1000000 in
/-- C1 witness: `ErrorDuplicateMethodConfigNamesWithNullMethod` (a null
method collides with an absent method on the same service) and
`ErrorDuplicateDefaultMethodConfigsWithNullService` (a null service
collides with an empty pattern on the global-default key). -/
theorem claim_c1_witness :
    (∃ gs mcErrs, create ChannelArgs.default [testParser1, testParser2]
        "\x7b\"methodConfig\": [ \x7b\"name\":[\x7b\"service\":\"TestServ\",\"method\":null\x7d]\x7d, \x7b\"name\":[\x7b\"service\":\"TestServ\"\x7d]\x7d ]\x7d" =
          .error (.group "Service config parsing error" gs) ∧
      ErrorNode.group "Method Params" [ErrorNode.group "methodConfig" mcErrs] ∈
        gs ∧
      ErrorNode.leaf "multiple method configs with same name" ∈ mcErrs) ∧
    (∃ gs mcErrs, create ChannelArgs.default [testParser1, testParser2]
        "\x7b\"methodConfig\": [ \x7b\"name\":[\x7b\"service\":null\x7d]\x7d, \x7b\"name\":[\x7b\x7d]\x7d ]\x7d" =
          .error (.group "Service config parsing error" gs) ∧
      ErrorNode.group "Method Params" [ErrorNode.group "methodConfig" mcErrs] ∈
        gs ∧
      ErrorNode.leaf "multiple default method configs" ∈ mcErrs) := by
  constructor
  · exact claim_c1 ChannelArgs.default [testParser1, testParser2]
      "\x7b\"methodConfig\": [ \x7b\"name\":[\x7b\"service\":\"TestServ\",\"method\":null\x7d]\x7d, \x7b\"name\":[\x7b\"service\":\"TestServ\"\x7d]\x7d ]\x7d"
      (Json.obj [("methodConfig", Json.arr
        [Json.obj [("name", Json.arr [Json.obj
          [("service", Json.str "TestServ"), ("method", Json.null)]])],
         Json.obj [("name", Json.arr [Json.obj
          [("service", Json.str "TestServ")]])]])])
      (ResKey.specific "TestServ/") rfl (by decide)
  · exact claim_c1 ChannelArgs.default [testParser1, testParser2]
      "\x7b\"methodConfig\": [ \x7b\"name\":[\x7b\"service\":null\x7d]\x7d, \x7b\"name\":[\x7b\x7d]\x7d ]\x7d"
      (Json.obj [("methodConfig", Json.arr
        [Json.obj [("name", Json.arr [Json.obj [("service", Json.null)]])],
         Json.obj [("name", Json.arr [Json.obj []])]])])
      ResKey.globalDefault rfl (by decide)

/-- C7: for every `retryPolicy` object, an explicit empty
`retryableStatusCodes` array always makes the retry parser fail with an
error containing "must be non-empty", while omitting the key entirely
yields (on success) a config whose retryable-status-codes set is empty —
omission and explicit empty array are asymmetric. -/
theorem claim_c7 (args : ChannelArgs) (entry : Json)
    (fs : List (String × Json))
    (hrp : entry.objectLookup "retryPolicy" = some (.obj fs)) :
    ((Json.obj fs).objectLookup "retryableStatusCodes" = some (.arr []) →
      ∃ err, retryParser.parsePerMethodParams args entry = (none, some err) ∧
        err.containsMsg "must be non-empty" = true) ∧
    ((Json.obj fs).objectLookup "retryableStatusCodes" = none →
      ∀ a b c d part codes,
        retryParser.parsePerMethodParams args entry =
          (some (.retryMethod a b c d part codes), none) → codes = []) := by
  have hstep : retryParser.parsePerMethodParams args entry =
      parseRetryPolicyObject args (Json.obj fs) := by
    simp [retryParser, retryParseMethod, hrp]
  constructor
  · intro hcodes
    have h5 : parseRetryableCodes (Json.obj fs) =
        ([], [.leaf "field:retryableStatusCodes error:must be non-empty"]) := by
      simp [parseRetryableCodes, hcodes]
    rcases hma : parseMaxAttempts (Json.obj fs) with ⟨ma, e1⟩
    rcases hib : parseBackoffField (Json.obj fs) "initialBackoff" with ⟨ib, e2⟩
    rcases hmb : parseBackoffField (Json.obj fs) "maxBackoff" with ⟨mb, e3⟩
    rcases hbm : parseBackoffMultiplier (Json.obj fs) with ⟨bm, e4⟩
    rcases hpa : parsePerAttemptRecvTimeout args (Json.obj fs) with ⟨part, e6⟩
    have hmem : ErrorNode.leaf
        "field:retryableStatusCodes error:must be non-empty" ∈
        e1 ++ e2 ++ e3 ++ e4 ++
          [ErrorNode.leaf "field:retryableStatusCodes error:must be non-empty"]
          ++ e6 := by
      simp
    have hfalse := isEmpty_false_of_mem hmem
    refine ⟨ErrorNode.group "retryPolicy" (e1 ++ e2 ++ e3 ++ e4 ++
      [ErrorNode.leaf "field:retryableStatusCodes error:must be non-empty"]
      ++ e6), ?_, ?_⟩
    · rw [hstep]
      simp only [parseRetryPolicyObject, hma, hib, hmb, hbm, h5, hpa, hfalse,
        Bool.false_eq_true, if_false]
    · simp only [ErrorNode.containsMsg,
        containsMsgList_of_mem "must be non-empty" hmem (by decide), Bool.or_true]
  · intro hnone a b c d part codes hres
    have h5 : parseRetryableCodes (Json.obj fs) = ([], []) := by
      simp [parseRetryableCodes, hnone]
    rcases hma : parseMaxAttempts (Json.obj fs) with ⟨ma, e1⟩
    rcases hib : parseBackoffField (Json.obj fs) "initialBackoff" with ⟨ib, e2⟩
    rcases hmb : parseBackoffField (Json.obj fs) "maxBackoff" with ⟨mb, e3⟩
    rcases hbm : parseBackoffMultiplier (Json.obj fs) with ⟨bm, e4⟩
    rcases hpa : parsePerAttemptRecvTimeout args (Json.obj fs) with ⟨part', e6⟩
    rw [hstep] at hres
    simp only [parseRetryPolicyObject, hma, hib, hmb, hbm, h5, hpa] at hres
    split at hres
    · rcases ma with _ | a' <;> rcases ib with _ | b' <;>
        rcases mb with _ | c' <;> rcases bm with _ | d' <;> simp_all
    · simp at hres

set_option maxRecDepth 1000000 in
/-- C7 witness: the `InvalidRetryPolicyEmptyRetryableStatusCodes` policy
(explicit `[]`) fails with "must be non-empty", and the
`ValidRetryPolicyWithPerAttemptRecvTimeoutAndUnsetRetryableStatusCodes`
policy (key omitted) succeeds with an empty codes set. -/
theorem claim_c7_witness :
    (∃ err, retryParser.parsePerMethodParams ChannelArgs.default
        (Json.obj [("retryPolicy", Json.obj
          [("maxAttempts", Json.num "2"),
           ("initialBackoff", Json.str "1s"),
           ("maxBackoff", Json.str "120s"),
           ("backoffMultiplier", Json.num "1.6"),
           ("retryableStatusCodes", Json.arr [])])]) = (none, some err) ∧
      err.containsMsg "must be non-empty" = true) ∧
    retryParser.parsePerMethodParams ChannelArgs.default
        (Json.obj [("retryPolicy", Json.obj
          [("maxAttempts", Json.num "2"),
           ("initialBackoff", Json.str "1s"),
           ("maxBackoff", Json.str "120s"),
           ("backoffMultiplier", Json.num "1.6")])]) =
      (some (.retryMethod 2 1000 120000 1600 none []), none) := by
  constructor
  · exact (claim_c7 ChannelArgs.default
      (Json.obj [("retryPolicy", Json.obj
        [("maxAttempts", Json.num "2"),
         ("initialBackoff", Json.str "1s"),
         ("maxBackoff", Json.str "120s"),
         ("backoffMultiplier", Json.num "1.6"),
         ("retryableStatusCodes", Json.arr [])])])
      [("maxAttempts", Json.num "2"),
       ("initialBackoff", Json.str "1s"),
       ("maxBackoff", Json.str "120s"),
       ("backoffMultiplier", Json.num "1.6"),
       ("retryableStatusCodes", Json.arr [])] rfl).1 rfl
  · have h := (claim_c7 ChannelArgs.default
      (Json.obj [("retryPolicy", Json.obj
        [("maxAttempts", Json.num "2"),
         ("initialBackoff", Json.str "1s"),
         ("maxBackoff", Json.str "120s"),
         ("backoffMultiplier", Json.num "1.6")])])
      [("maxAttempts", Json.num "2"),
       ("initialBackoff", Json.str "1s"),
       ("maxBackoff", Json.str "120s"),
       ("backoffMultiplier", Json.num "1.6")] rfl).2 rfl 2 1000 120000 1600
      none [] rfl
    exact rfl

/-- C8: for every `retryPolicy` containing a `perAttemptRecvTimeout`
field, the field is parsed and validated (duration string, > 0)
regardless of configuration options — a malformed or non-positive value
is an error for every `ChannelArgs` — but the parsed value is retained in
the resulting config only when the experimental hedging option is
enabled; when hedging is disabled the value is silently discarded and
parsing still succeeds. -/
theorem claim_c8 (args : ChannelArgs) (entry : Json)
    (fs : List (String × Json))
    (hrp : entry.objectLookup "retryPolicy" = some (.obj fs)) :
    ((∀ v, (Json.obj fs).objectLookup "perAttemptRecvTimeout" = some v →
        parseDurationMilli v = none →
        ∃ err, retryParser.parsePerMethodParams args entry =
            (none, some err) ∧
          err.containsMsg "field:perAttemptRecvTimeout" = true) ∧
     (∀ v dur, (Json.obj fs).objectLookup "perAttemptRecvTimeout" = some v →
        parseDurationMilli v = some dur → dur ≤ 0 →
        ∃ err, retryParser.parsePerMethodParams args entry =
            (none, some err) ∧
          err.containsMsg "field:perAttemptRecvTimeout" = true) ∧
     (∀ v dur, (Json.obj fs).objectLookup "perAttemptRecvTimeout" = some v →
        parseDurationMilli v = some dur → 0 < dur →
        ∀ a b c d part codes,
          retryParser.parsePerMethodParams args entry =
            (some (.retryMethod a b c d part codes), none) →
          part = if args.enableHedging = true then some dur else none)) := by
  have hstep : retryParser.parsePerMethodParams args entry =
      parseRetryPolicyObject args (Json.obj fs) := by
    simp [retryParser, retryParseMethod, hrp]
  refine ⟨?_, ?_, ?_⟩
  · intro v hv hd
    have h6 : parsePerAttemptRecvTimeout args (Json.obj fs) = (none,
        [.leaf "field:perAttemptRecvTimeout error:type must be STRING of the form given by google.proto.Duration."]) := by
      simp [parsePerAttemptRecvTimeout, hv, hd]
    rcases hma : parseMaxAttempts (Json.obj fs) with ⟨ma, e1⟩
    rcases hib : parseBackoffField (Json.obj fs) "initialBackoff" with ⟨ib, e2⟩
    rcases hmb : parseBackoffField (Json.obj fs) "maxBackoff" with ⟨mb, e3⟩
    rcases hbm : parseBackoffMultiplier (Json.obj fs) with ⟨bm, e4⟩
    rcases hrc : parseRetryableCodes (Json.obj fs) with ⟨codes, e5⟩
    have hmem : ErrorNode.leaf
        "field:perAttemptRecvTimeout error:type must be STRING of the form given by google.proto.Duration." ∈
        e1 ++ e2 ++ e3 ++ e4 ++ e5 ++
          [ErrorNode.leaf "field:perAttemptRecvTimeout error:type must be STRING of the form given by google.proto.Duration."] := by
      simp
    have hfalse := isEmpty_false_of_mem hmem
    refine ⟨ErrorNode.group "retryPolicy" (e1 ++ e2 ++ e3 ++ e4 ++ e5 ++
      [ErrorNode.leaf "field:perAttemptRecvTimeout error:type must be STRING of the form given by google.proto.Duration."]),
      ?_, ?_⟩
    · rw [hstep]
      simp only [parseRetryPolicyObject, hma, hib, hmb, hbm, hrc, h6, hfalse,
        Bool.false_eq_true, if_false]
    · simp only [ErrorNode.containsMsg,
        containsMsgList_of_mem "field:perAttemptRecvTimeout" hmem (by decide), Bool.or_true]
  · intro v dur hv hd hneg
    have h6 : parsePerAttemptRecvTimeout args (Json.obj fs) = (none,
        [.leaf "field:perAttemptRecvTimeout error:must be greater than 0"]) := by
      simp only [parsePerAttemptRecvTimeout, hv, hd]
      rw [if_neg (by omega)]
    rcases hma : parseMaxAttempts (Json.obj fs) with ⟨ma, e1⟩
    rcases hib : parseBackoffField (Json.obj fs) "initialBackoff" with ⟨ib, e2⟩
    rcases hmb : parseBackoffField (Json.obj fs) "maxBackoff" with ⟨mb, e3⟩
    rcases hbm : parseBackoffMultiplier (Json.obj fs) with ⟨bm, e4⟩
    rcases hrc : parseRetryableCodes (Json.obj fs) with ⟨codes, e5⟩
    have hmem : ErrorNode.leaf
        "field:perAttemptRecvTimeout error:must be greater than 0" ∈
        e1 ++ e2 ++ e3 ++ e4 ++ e5 ++
          [ErrorNode.leaf
            "field:perAttemptRecvTimeout error:must be greater than 0"] := by
      simp
    have hfalse := isEmpty_false_of_mem hmem
    refine ⟨ErrorNode.group "retryPolicy" (e1 ++ e2 ++ e3 ++ e4 ++ e5 ++
      [ErrorNode.leaf
        "field:perAttemptRecvTimeout error:must be greater than 0"]), ?_, ?_⟩
    · rw [hstep]
      simp only [parseRetryPolicyObject, hma, hib, hmb, hbm, hrc, h6, hfalse,
        Bool.false_eq_true, if_false]
    · simp only [ErrorNode.containsMsg,
        containsMsgList_of_mem "field:perAttemptRecvTimeout" hmem (by decide), Bool.or_true]
  · intro v dur hv hd hpos a b c d part codes hres
    have h6 : parsePerAttemptRecvTimeout args (Json.obj fs) =
        ((if args.enableHedging = true then some dur else none), []) := by
      simp [parsePerAttemptRecvTimeout, hv, hd, hpos]
    rcases hma : parseMaxAttempts (Json.obj fs) with ⟨ma, e1⟩
    rcases hib : parseBackoffField (Json.obj fs) "initialBackoff" with ⟨ib, e2⟩
    rcases hmb : parseBackoffField (Json.obj fs) "maxBackoff" with ⟨mb, e3⟩
    rcases hbm : parseBackoffMultiplier (Json.obj fs) with ⟨bm, e4⟩
    rcases hrc : parseRetryableCodes (Json.obj fs) with ⟨codes', e5⟩
    rw [hstep] at hres
    simp only [parseRetryPolicyObject, hma, hib, hmb, hbm, hrc, h6] at hres
    split at hres
    · rcases ma with _ | a' <;> rcases ib with _ | b' <;>
        rcases mb with _ | c' <;> rcases bm with _ | d' <;> simp_all
    · simp at hres

set_option maxRecDepth 1000000 in
/-- C8 witness: the `ValidRetryPolicyWithPerAttemptRecvTimeout` policy
(hedging enabled) retains `perAttemptRecvTimeout` = 1s; the same policy
with hedging disabled
(`ValidRetryPolicyWithPerAttemptRecvTimeoutIgnoredWhenHedgingDisabled`)
succeeds with the value discarded. -/
theorem claim_c8_witness :
    retryParser.parsePerMethodParams ⟨false, true⟩
        (Json.obj [("retryPolicy", Json.obj
          [("maxAttempts", Json.num "2"),
           ("initialBackoff", Json.str "1s"),
           ("maxBackoff", Json.str "120s"),
           ("backoffMultiplier", Json.num "1.6"),
           ("perAttemptRecvTimeout", Json.str "1s"),
           ("retryableStatusCodes", Json.arr [Json.str "ABORTED"])])]) =
      (some (.retryMethod 2 1000 120000 1600 (some 1000) ["ABORTED"]), none) ∧
    retryParser.parsePerMethodParams ⟨false, false⟩
        (Json.obj [("retryPolicy", Json.obj
          [("maxAttempts", Json.num "2"),
           ("initialBackoff", Json.str "1s"),
           ("maxBackoff", Json.str "120s"),
           ("backoffMultiplier", Json.num "1.6"),
           ("perAttemptRecvTimeout", Json.str "1s"),
           ("retryableStatusCodes", Json.arr [Json.str "ABORTED"])])]) =
      (some (.retryMethod 2 1000 120000 1600 none ["ABORTED"]), none) := by
  constructor
  · have h := ((claim_c8 ⟨false, true⟩
      (Json.obj [("retryPolicy", Json.obj
        [("maxAttempts", Json.num "2"),
         ("initialBackoff", Json.str "1s"),
         ("maxBackoff", Json.str "120s"),
         ("backoffMultiplier", Json.num "1.6"),
         ("perAttemptRecvTimeout", Json.str "1s"),
         ("retryableStatusCodes", Json.arr [Json.str "ABORTED"])])])
      [("maxAttempts", Json.num "2"),
       ("initialBackoff", Json.str "1s"),
       ("maxBackoff", Json.str "120s"),
       ("backoffMultiplier", Json.num "1.6"),
       ("perAttemptRecvTimeout", Json.str "1s"),
       ("retryableStatusCodes", Json.arr [Json.str "ABORTED"])] rfl).2.2
      (Json.str "1s") 1000 rfl rfl (by decide) 2 1000 120000 1600 (some 1000)
      ["ABORTED"] rfl)
    exact rfl
  · have h := ((claim_c8 ⟨false, false⟩
      (Json.obj [("retryPolicy", Json.obj
        [("maxAttempts", Json.num "2"),
         ("initialBackoff", Json.str "1s"),
         ("maxBackoff", Json.str "120s"),
         ("backoffMultiplier", Json.num "1.6"),
         ("perAttemptRecvTimeout", Json.str "1s"),
         ("retryableStatusCodes", Json.arr [Json.str "ABORTED"])])])
      [("maxAttempts", Json.num "2"),
       ("initialBackoff", Json.str "1s"),
       ("maxBackoff", Json.str "120s"),
       ("backoffMultiplier", Json.num "1.6"),
       ("perAttemptRecvTimeout", Json.str "1s"),
       ("retryableStatusCodes", Json.arr [Json.str "ABORTED"])] rfl).2.2
      (Json.str "1s") 1000 rfl rfl (by decide) 2 1000 120000 1600 none
      ["ABORTED"] rfl)
    exact rfl

end ServiceConfigModel
